import Mathlib

/-!
Shallow embedding of the antfarm-simulator rule-generation engine.

Source files embedded here: `src/presets.js` (ECA bit mapper, structural
enhancer, mutation seed pool), `src/ruleGenerator.js` (dynamics statistics,
structural gate, static-dynamics gate of `validate`, `mutate`, bucketed
seed-pool weights), `src/simulation.js` (`AntSimulation.step`/`update`) and
the randomize retry loop of `src/main.js`.

Modelling conventions:
* JS numbers used as table data (state ids, color ids) are `Nat`; turn values
  are `Int` (`TURN.L = -1`). 32-bit JS integer arithmetic (`|0`, `Math.imul`,
  `>>>`) is modelled on `Nat` residues `% 2^32`, which has the same bit
  patterns as the JS signed/unsigned views for every operation used here
  (add, imul, xor, or, logical shift right).
* A JS rules object `{state: {color: {write, turn, nextState}}}` is modelled
  by `RuleTable`: the ordered numeric key lists plus a total cell function.
  The model is rectangular by construction; every claim below either
  conditions on the structural gate (which enforces rectangularity in the
  source) or concerns rectangular tables produced by the generators.
* `Math.random()` draws are modelled as explicitly threaded oracle values
  (a `Nat` below `2^32` standing for `floor(r * 2^32)`), so that
  `Math.floor(r * n)` is `draw * n / 2^32` and `r < 0.5` is `draw < 2^31`.
  Functions of the source that perform no ambient random draw (the bit
  mapper, the seeded structural enhancer, the seed-pool builder) need no
  oracle argument: they are pure functions of their inputs.
* Floating-point threshold comparisons (`< 0.22`, `> 0.68`, `< 0.35`, ...)
  are modelled as exact rational comparisons.  For every value the source
  can feed them (ratios of small integer counts, 32-bit PRNG outputs divided
  by `2^32`) the rational comparison and the double comparison agree,
  because the quantities compared are never within the double rounding
  error of the threshold.
-/

/-- `TURN.L` from `simulation.js`. -/
def TURN.L : Int := -1

/-- `TURN.R` from `simulation.js`. -/
def TURN.R : Int := 1

/-- `TURN.U` from `simulation.js`. -/
def TURN.U : Int := 2

/-- `TURN.N` from `simulation.js`. -/
def TURN.N : Int := 0

/-- One cell of a rule table: `{write, turn, nextState}`. -/
structure Rule where
  write : Nat
  turn : Int
  nextState : Nat
deriving DecidableEq, Repr

/-- The cell-lookup part of a rules object. -/
def Table : Type := Nat → Nat → Rule

/-- A rules object: its numeric state keys, its (shared) numeric color keys,
and the cell contents.  Models the JS `{state: {color: rule}}` shape. -/
structure RuleTable where
  stateKeys : List Nat
  colors : List Nat
  rule : Table

/-- In-place assignment `rules[s][c] = r` on the cell function. -/
def setCell (t : Table) (s c : Nat) (r : Rule) : Table :=
  fun s' c' => if s' = s ∧ c' = c then r else t s' c'

/-! ## presets.js: bit strings and ECA transforms -/

/-- `'1'` bits of a JS bit string as booleans; `bits[i]` out of range reads
as `undefined === '1'`, i.e. `false`. -/
def bitNat (bits : List Bool) (i : Nat) : Nat :=
  if bits.getD i false then 1 else 0

/-- `ecaRuleToBitString`: 8-character binary string of the rule number,
most significant bit first (`toString(2).padStart(8, '0')` for inputs
below 256, the only inputs the source uses). -/
def ecaRuleToBitString (ruleNumber : Nat) : List Bool :=
  (List.range 8).map (fun i => Nat.testBit ruleNumber (7 - i))

/-- `ECA_MIRROR_MAP` from `presets.js`. -/
def ECA_MIRROR_MAP : List Nat := [0, 4, 2, 6, 1, 5, 3, 7]

/-- `invertBits`: complement every character of the bit string. -/
def invertBits (bits : List Bool) : List Bool :=
  bits.map (fun b => !b)

/-- The `mirror_lr` step of `applyEcaTransforms`:
`mirrored += out[ECA_MIRROR_MAP[i]]` for `i < 8`. -/
def mirrorLr (bits : List Bool) : List Bool :=
  (List.range 8).map (fun i => bits.getD (ECA_MIRROR_MAP.getD i 0) false)

/-- The `invert_in_out` step of `applyEcaTransforms`: reverse the 8 bits and
complement each (`out[7 - i]` flipped). -/
def invertInOut (bits : List Bool) : List Bool :=
  (List.range 8).map (fun i => !(bits.getD (7 - i) false))

/-- `applyEcaTransforms`: apply `mirror_lr`, then `invert_in_out`, then
`invert_out`, each only when named in the transform list. -/
def applyEcaTransforms (bits : List Bool) (transforms : List String) : List Bool :=
  let out := if transforms.contains "mirror_lr" then mirrorLr bits else bits
  let out := if transforms.contains "invert_in_out" then invertInOut out else out
  if transforms.contains "invert_out" then invertBits out else out

/-- `PERIODIC2_BITS` from `presets.js` (each string as booleans). -/
def PERIODIC2_BITS : List (List Bool) :=
  [[false, true, false, true, false, true, false, true],
   [true, false, true, false, true, false, true, false],
   [false, false, true, true, false, false, true, true],
   [true, true, false, false, true, true, false, false],
   [false, false, false, false, true, true, true, true],
   [true, true, true, true, false, false, false, false]]

/-- `KNOWN_CLASS_4_ECA` from `presets.js`. -/
def KNOWN_CLASS_4_ECA : List Nat := [30, 54, 110]

/-- `KNOWN_CLASS_3_ECA` from `presets.js`. -/
def KNOWN_CLASS_3_ECA : List Nat := [22, 45, 57, 73, 90, 105, 126, 150]

/-- `classHintFromEcaBits` from `presets.js`. -/
def classHintFromEcaBits (bits : List Bool) (ecaRule : Nat) : Nat :=
  if ecaRule = 184 then 2
  else
    let ones := ((List.range 8).filter (fun i => bits.getD i false)).length
    if ones = 0 ∨ ones = 8 then 1
    else if ones = 1 ∨ ones = 7 then 1
    else if PERIODIC2_BITS.contains bits then 2
    else if KNOWN_CLASS_4_ECA.contains ecaRule then 4
    else if KNOWN_CLASS_3_ECA.contains ecaRule then 3
    else
      let runs := ((List.range 8).filter
        (fun i => bits.getD i false ≠ bits.getD ((i + 1) % 8) false)).length
      if runs ≥ 6 then 3
      else if runs ≥ 3 then 2
      else 1

/-! ## presets.js: mapBitsToTurmiteRules -/

/-- The `[TURN.L, TURN.R, TURN.N, TURN.U]` lookup used by the v2 and
stream-expand mappings. -/
def turnsLRNU : List Int := [TURN.L, TURN.R, TURN.N, TURN.U]

/-- `mapBitsToTurmiteRules` from `presets.js`.  `eca_stream_to_turmite_2s3c_v1`
expands the 8 bits to a 24-bit stream and slices 4 bits per cell; every other
mapping id uses the 2-state/2-color direct bit layout, with the richer
turn/state decoding only for `eca8bit_to_turmite_v2`. -/
def mapBitsToTurmiteRules (bits : List Bool) (mapping : String) : RuleTable :=
  if mapping = "eca_stream_to_turmite_2s3c_v1" then
    let numStates := 2
    let numColors := 3
    let streamLen := numStates * numColors * 4
    let stream : List Nat := (List.range streamLen).map
      (fun i => (bitNat bits (i % 8)) ^^^ (((i * 5) ^^^ (i / 2)) &&& 1))
    { stateKeys := [0, 1], colors := [0, 1, 2],
      rule := fun state color =>
        let k := state * numColors + color
        let w0 := stream.getD (k * 4) 0
        let w1 := stream.getD (k * 4 + 1) 0
        let t0 := stream.getD (k * 4 + 2) 0
        let t1 := stream.getD (k * 4 + 3) 0
        let writeVal := (w0 * 2 + w1) % numColors
        let turnCode := t0 * 2 + t1
        { write := writeVal, turn := turnsLRNU.getD turnCode 0,
          nextState := (state + (writeVal &&& 1)) % numStates } }
  else
    { stateKeys := [0, 1], colors := [0, 1],
      rule := fun state color =>
        let k := state * 2 + color
        let bWrite := bitNat bits (k * 2)
        let bTurn := bitNat bits (k * 2 + 1)
        if mapping = "eca8bit_to_turmite_v2" then
          let turnCode := bTurn * 2 + bWrite
          { write := bWrite, turn := turnsLRNU.getD turnCode 0,
            nextState := if bTurn = 1 then state else (state + 1) % 2 }
        else
          { write := bWrite, turn := if bTurn = 1 then TURN.R else TURN.L,
            nextState := (state + 1) % 2 } }

/-! ## presets.js: mulberry32 and the structural enhancer -/

/-- One step of the `mulberry32` PRNG, on 32-bit residues: returns the new
internal state and the raw 32-bit output (the JS float is `out / 2^32`). -/
def mulberry32Next (a0 : Nat) : Nat × Nat :=
  let a := (a0 + 0x6D2B79F5) % 4294967296
  let t1 := ((a ^^^ (a >>> 15)) * (1 ||| a)) % 4294967296
  let m := ((t1 ^^^ (t1 >>> 7)) * (61 ||| t1)) % 4294967296
  let t2 := ((t1 + m) % 4294967296) ^^^ t1
  (a, t2 ^^^ (t2 >>> 14))

/-- `Math.floor(prng() * n)` for one PRNG step: new state and index. -/
def floorDraw (p n : Nat) : Nat × Nat :=
  let r := mulberry32Next p
  (r.1, r.2 * n / 4294967296)

/-- The `[TURN.L, TURN.R, TURN.U, TURN.N]` list used by `enhancePresetRules`. -/
def turnsLRUN : List Int := [TURN.L, TURN.R, TURN.U, TURN.N]

/-- Stable insertion into an ascending list (used to model
`keys.sort((a, b) => a - b)`). -/
def insertAsc (a : Nat) : List Nat → List Nat
  | [] => [a]
  | b :: rest => if a ≤ b then a :: b :: rest else b :: insertAsc a rest

/-- Ascending numeric sort of a key list. -/
def sortNat (l : List Nat) : List Nat :=
  l.foldr insertAsc []

/-- One iteration of the color-growing `while` loop of `enhancePresetRules`:
add `max(colors) + 1` with a fresh seeded rule per state, in state order. -/
def enhanceGrowColorsOnce (stateKeys colors : List Nat) (tbl : Table) (p : Nat) :
    List Nat × Table × Nat :=
  let newColor := colors.foldl max 0 + 1
  let res := stateKeys.foldl (fun (acc : Table × Nat) s =>
    let (p, w) := floorDraw acc.2 (newColor + 1)
    let (p, ti) := floorDraw p turnsLRUN.length
    let (p, ni) := floorDraw p stateKeys.length
    (setCell acc.1 s newColor
      { write := w, turn := turnsLRUN.getD ti 0, nextState := stateKeys.getD ni 0 }, p))
    (tbl, p)
  (colors ++ [newColor], res.1, res.2)

/-- The color-growing `while` loop (`while colors.length < targetColors`),
with fuel `targetColors`, which bounds the number of iterations since each
iteration appends exactly one color to a nonempty list. -/
def enhanceGrowColors (targetColors : Nat) (stateKeys : List Nat) :
    Nat → List Nat × Table × Nat → List Nat × Table × Nat
  | 0, st => st
  | fuel + 1, (colors, tbl, p) =>
    if colors.length < targetColors then
      enhanceGrowColors targetColors stateKeys fuel
        (enhanceGrowColorsOnce stateKeys colors tbl p)
    else (colors, tbl, p)

/-- One iteration of the state-growing `while` loop of `enhancePresetRules`:
copy a random template state's row, perturb turn (probability 0.5, fresh
draw) and nextState (probability 0.35), then reroute one random cell of
every pre-existing state to the new state. -/
def enhanceGrowStatesOnce (colors stateKeys : List Nat) (tbl : Table) (p : Nat) :
    List Nat × Table × Nat :=
  let newState := stateKeys.foldl max 0 + 1
  let (p, tIdx) := floorDraw p stateKeys.length
  let templateState := stateKeys.getD tIdx 0
  let res1 := colors.foldl (fun (acc : Table × Nat) c =>
    let src := acc.1 templateState c
    let r1 := mulberry32Next acc.2
    let (p, cell) :=
      if r1.2 < 2147483648 then
        let (p, ti) := floorDraw r1.1 turnsLRUN.length
        (p, { src with turn := turnsLRUN.getD ti 0 })
      else (r1.1, src)
    let r3 := mulberry32Next p
    let cell := if r3.2 * 20 < 7 * 4294967296 then { cell with nextState := newState } else cell
    (setCell acc.1 newState c cell, r3.1))
    (tbl, p)
  let res2 := stateKeys.foldl (fun (acc : Table × Nat) s =>
    let (p, ci) := floorDraw acc.2 colors.length
    let c := colors.getD ci 0
    (setCell acc.1 s c { acc.1 s c with nextState := newState }, p))
    res1
  (stateKeys ++ [newState], res2.1, res2.2)

/-- The state-growing `while` loop (`while stateKeys.length < targetStates`). -/
def enhanceGrowStates (targetStates : Nat) (colors : List Nat) :
    Nat → List Nat × Table × Nat → List Nat × Table × Nat
  | 0, st => st
  | fuel + 1, (stateKeys, tbl, p) =>
    if stateKeys.length < targetStates then
      enhanceGrowStates targetStates colors fuel
        (enhanceGrowStatesOnce colors stateKeys tbl p)
    else (stateKeys, tbl, p)

/-- "Guarantee paint": per state, force one random color's write to the next
color in the color list. -/
def enhanceGuaranteePaint (stateKeys colors : List Nat) (tbl : Table) (p : Nat) :
    Table × Nat :=
  stateKeys.foldl (fun (acc : Table × Nat) s =>
    let (p, ci) := floorDraw acc.2 colors.length
    let c := colors.getD ci 0
    let nextColor := colors.getD ((colors.indexOf c + 1) % colors.length) 0
    (setCell acc.1 s c { acc.1 s c with write := nextColor }, p))
    (tbl, p)

/-- The seeded mutation loop of `enhancePresetRules`: `mutationCount` times,
pick a random cell, then with `pick < 0.34` redraw its turn, with
`pick < 0.67` redraw its write, otherwise redraw its nextState. -/
def enhanceMutations (mutationCount : Nat) (stateKeys colors : List Nat)
    (tbl : Table) (p : Nat) : Table × Nat :=
  (List.range mutationCount).foldl (fun (acc : Table × Nat) _ =>
    let (p, si) := floorDraw acc.2 stateKeys.length
    let s := stateKeys.getD si 0
    let (p, ci) := floorDraw p colors.length
    let c := colors.getD ci 0
    let r := acc.1 s c
    let pk := mulberry32Next p
    if pk.2 * 50 < 17 * 4294967296 then
      let (p, ti) := floorDraw pk.1 turnsLRUN.length
      (setCell acc.1 s c { r with turn := turnsLRUN.getD ti 0 }, p)
    else if pk.2 * 100 < 67 * 4294967296 then
      let (p, wi) := floorDraw pk.1 colors.length
      (setCell acc.1 s c { r with write := colors.getD wi 0 }, p)
    else
      let (p, ni) := floorDraw pk.1 stateKeys.length
      (setCell acc.1 s c { r with nextState := stateKeys.getD ni 0 }, p))
    (tbl, p)

/-- The bootstrap pass of `enhancePresetRules`: when a non-zero color exists,
rewrite every state's color-0 rule to paint a non-zero color, turn R/L by
state index parity, and advance cyclically. -/
def enhanceBootstrap (stateKeys colors : List Nat) (tbl : Table) : Table :=
  let nonZeroColors := colors.filter (fun c => c ≠ 0)
  if nonZeroColors.isEmpty then tbl
  else
    (List.range stateKeys.length).foldl (fun tbl i =>
      let s := stateKeys.getD i 0
      setCell tbl s 0
        { write := nonZeroColors.getD (i % nonZeroColors.length) 0,
          turn := if i % 2 = 0 then TURN.R else TURN.L,
          nextState := stateKeys.getD ((i + 1) % stateKeys.length) 0 }) tbl

/-- `enhancePresetRules` from `presets.js`, with the option-object defaults
`{targetStates = 3, targetColors = 3, mutationCount = 14}` passed explicitly.
All randomness comes from the `mulberry32(seed)` stream threaded through the
phases, so the function is a pure function of `(rules, seed, targets)`. -/
def enhancePresetRules (rt : RuleTable) (seed : Nat)
    (targetStates targetColors mutationCount : Nat) : RuleTable :=
  let p0 := seed % 4294967296
  let stateKeys := sortNat rt.stateKeys
  let colors := sortNat rt.colors
  if stateKeys.length = 0 ∨ colors.length = 0 then rt
  else
    let g1 := enhanceGrowColors targetColors stateKeys targetColors (colors, rt.rule, p0)
    let g2 := enhanceGrowStates targetStates g1.1 targetStates (stateKeys, g1.2.1, g1.2.2)
    let g3 := enhanceGuaranteePaint g2.1 g1.1 g2.2.1 g2.2.2
    let g4 := enhanceMutations mutationCount g2.1 g1.1 g3.1 g3.2
    { stateKeys := g2.1, colors := g1.1, rule := enhanceBootstrap g2.1 g1.1 g4.1 }

/-! ## presets.js: buildMutationSeedPool (the part before the top-up) -/

/-- Whether the pattern matches a leading segment of the character list. -/
def leadMatch : List Char → List Char → Bool
  | _, [] => true
  | [], _ :: _ => false
  | a :: as, b :: bs => a = b && leadMatch as bs

/-- Substring search on character lists. -/
def hasSub : List Char → List Char → Bool
  | [], pat => pat.isEmpty
  | s :: rest, pat => leadMatch (s :: rest) pat || hasSub rest pat

/-- JS `String.prototype.includes`. -/
def stringIncludes (s pat : String) : Bool :=
  hasSub s.data pat.data

/-- `String(rule).padStart(3, '0')` for rule numbers up to 255. -/
def pad3 (n : Nat) : String :=
  let s := toString n
  if s.length = 1 then "00" ++ s
  else if s.length = 2 then "0" ++ s
  else s

/-- Seed pool entry metadata (`meta` object of `buildMutationSeedPool`). -/
structure SeedMeta where
  family : String
  ecaRule : Nat
  radius : Nat
  alphabet : List Nat
  transforms : List String
  wolframClassHint : Nat
  mapping : String

/-- One entry of `MUTATION_SEED_POOL`. -/
structure SeedEntry where
  id : String
  label : String
  meta : SeedMeta
  rules : RuleTable

/-- The fixed `transformCombos` list of `buildMutationSeedPool`. -/
def transformCombos : List (List String) :=
  [[], ["mirror_lr"], ["invert_out"], ["mirror_lr", "invert_out"],
   ["invert_in_out"], ["mirror_lr", "invert_in_out"],
   ["invert_in_out", "invert_out"],
   ["mirror_lr", "invert_in_out", "invert_out"]]

/-- The fixed `mappings` list of `buildMutationSeedPool`. -/
def seedPoolMappings : List String :=
  ["eca8bit_to_turmite_v1", "eca8bit_to_turmite_v2", "eca_stream_to_turmite_2s3c_v1"]

/-- The per-rule dedup loop of `buildMutationSeedPool`: walk the transform
combos in order, keeping the first combo producing each distinct bit string
(`seenBits` is the accumulator of already-seen strings). -/
def dedupVariantsAux (baseBits : List Bool) :
    List (List String) → List (List Bool) → List (List Bool × List String)
  | [], _ => []
  | t :: rest, seen =>
    let bits := applyEcaTransforms baseBits t
    if bits ∈ seen then dedupVariantsAux baseBits rest seen
    else (bits, t) :: dedupVariantsAux baseBits rest (bits :: seen)

/-- `uniqueVariants` for one rule number. -/
def dedupVariants (baseBits : List Bool) : List (List Bool × List String) :=
  dedupVariantsAux baseBits transformCombos []

/-- `transformsKey`: `transforms.join('+')`, or `'base'` when empty. -/
def transformsKey (transforms : List String) : String :=
  if transforms.isEmpty then "base" else String.intercalate "+" transforms

/-- One pushed entry of the main loop of `buildMutationSeedPool`. -/
def mkSeedEntry (rule : Nat) (bits : List Bool) (transforms : List String)
    (mapping : String) : SeedEntry :=
  let classHint := classHintFromEcaBits bits rule
  let family := if rule = 184 then "traffic" else "ECA"
  let tKey := transformsKey transforms
  let mappingFamily := if stringIncludes mapping "3c" then "multicolor" else family
  { id := "eca-" ++ pad3 rule ++ "__" ++ tKey ++ "__" ++ mapping,
    label := "ECA " ++ toString rule ++ " → " ++ mapping ++ " (" ++ tKey ++ ")",
    meta := { family := mappingFamily, ecaRule := rule, radius := 1,
              alphabet := [0, 1],
              transforms := if transforms.isEmpty then ["base"] else transforms,
              wolframClassHint := classHint, mapping := mapping },
    rules := mapBitsToTurmiteRules bits mapping }

/-- The seed pool before the deterministic top-up: for every rule number
0–255, every deduplicated transform variant, and every mapping scheme, one
entry, in source push order. -/
def buildMutationSeedPoolPre : List SeedEntry :=
  (List.range 256).flatMap fun rule =>
    (dedupVariants (ecaRuleToBitString rule)).flatMap fun v =>
      seedPoolMappings.map fun mapping => mkSeedEntry rule v.1 v.2 mapping

/-! ## ruleGenerator.js: dynamics statistics and the validator gates -/

/-- `DynamicsStats` as computed by `computeDynamicsStats`. -/
structure DynamicsStats where
  numStates : Nat
  numColors : Nat
  totalRules : Nat
  writeChangeCount : Nat
  nonNoTurnCount : Nat
  nonZeroWriteFromZeroCount : Nat
  selfNextStateCount : Nat
  selfWriteCount : Nat
  absorbingColors : List Nat

/-- The `(s, c)` pairs visited by the nested loops of `computeDynamicsStats`,
in source iteration order. -/
def allCells (rt : RuleTable) : List (Nat × Nat) :=
  rt.stateKeys.flatMap fun s => rt.colors.map fun c => (s, c)

/-- `computeDynamicsStats` from `ruleGenerator.js`.  A color is absorbing
when every state rewrites it to itself; the absorbing list keeps the color
iteration order (JS `Map` preserves insertion order). -/
def computeDynamicsStats (rt : RuleTable) : DynamicsStats :=
  if rt.stateKeys.length = 0 ∨ rt.colors.length = 0 then
    { numStates := rt.stateKeys.length, numColors := rt.colors.length,
      totalRules := 0, writeChangeCount := 0, nonNoTurnCount := 0,
      nonZeroWriteFromZeroCount := 0, selfNextStateCount := 0,
      selfWriteCount := 0, absorbingColors := [] }
  else
    let cells := allCells rt
    { numStates := rt.stateKeys.length, numColors := rt.colors.length,
      totalRules := cells.length,
      writeChangeCount :=
        (cells.filter fun p => (rt.rule p.1 p.2).write ≠ p.2).length,
      nonNoTurnCount :=
        (cells.filter fun p => (rt.rule p.1 p.2).turn ≠ TURN.N).length,
      nonZeroWriteFromZeroCount :=
        (cells.filter fun p => p.2 = 0 ∧ (rt.rule p.1 p.2).write ≠ 0).length,
      selfNextStateCount :=
        (cells.filter fun p => (rt.rule p.1 p.2).nextState = p.1).length,
      selfWriteCount :=
        (cells.filter fun p => (rt.rule p.1 p.2).write = p.2).length,
      absorbingColors :=
        rt.colors.filter fun c => rt.stateKeys.all fun s => (rt.rule s c).write = c }

/-- The turn value of every cell (the `turnSet` of `analyzeRuleSet`, as a
list of occurrences; distinct values are counted via `dedup`). -/
def turnValues (rt : RuleTable) : List Int :=
  (allCells rt).map fun p => (rt.rule p.1 p.2).turn

/-- The write value of every cell (the `writeSet` of `analyzeRuleSet`). -/
def writeValues (rt : RuleTable) : List Nat :=
  (allCells rt).map fun p => (rt.rule p.1 p.2).write

/-- `isValidRuleSetStructure` from `ruleGenerator.js` on the rectangular
model: no states ⇒ `analyzeRuleSet` returns null ⇒ false; fewer than 2
colors ⇒ false; any turn outside {L, R, U, N} ⇒ false; any `nextState` or
`write` outside the key sets ⇒ false; fewer than 2 distinct turns or writes
⇒ false.  (The non-finite/missing-cell `invalid` paths of the source cannot
arise in the rectangular numeric model.) -/
def isValidRuleSetStructure (rt : RuleTable) : Bool :=
  if rt.stateKeys.length = 0 then false
  else if rt.stateKeys.length < 1 ∨ rt.colors.length < 2 then false
  else if ¬ (∀ t ∈ turnValues rt, t = TURN.L ∨ t = TURN.R ∨ t = TURN.U ∨ t = TURN.N)
    then false
  else if ¬ (∀ p ∈ allCells rt,
      (rt.rule p.1 p.2).nextState ∈ rt.stateKeys ∧ (rt.rule p.1 p.2).write ∈ rt.colors)
    then false
  else if (turnValues rt).dedup.length < 2 then false
  else if (writeValues rt).dedup.length < 2 then false
  else true

/-- The static-dynamics gate of `validate` (the checks performed on
`computeDynamicsStats` before any simulation is built).  Ratio thresholds
are the source's `writeChangeRatio < 0.22`, `noTurnRatio > 0.68`,
`selfNextRatio > 0.92` as exact rational comparisons. -/
def staticDynamicsPass (rt : RuleTable) : Bool :=
  let d := computeDynamicsStats rt
  if d.totalRules = 0 then true
  else if d.nonZeroWriteFromZeroCount = 0 then false
  else if 0 < d.absorbingColors.length then false
  else if 100 * d.writeChangeCount < 22 * d.totalRules then false
  else if 100 * (d.totalRules - d.nonNoTurnCount) > 68 * d.totalRules then false
  else if 100 * d.selfNextStateCount > 92 * d.totalRules then false
  else if d.nonZeroWriteFromZeroCount < min 2 d.numStates then false
  else true

/-- `validate` from `ruleGenerator.js`, parametrized over the simulated gate
(everything from the `SimulationClass` resolution onwards).  The structural
gate and the static-dynamics gate run before the simulation arguments are
even inspected; `simGate` receives the rules, the spawn strategy and the
width/height arguments only when both static gates pass. -/
def validateWith (simGate : RuleTable → String → Nat → Nat → Bool)
    (rt : RuleTable) (strategy : String) (w h : Nat) : Bool :=
  if isValidRuleSetStructure rt then
    if staticDynamicsPass rt then simGate rt strategy w h else false
  else false

/-! ## ruleGenerator.js: mutate -/

/-- The `[TURN.L, TURN.R, TURN.U, TURN.N]` list used by `mutate`. -/
def mutateTurns : List Int := [TURN.L, TURN.R, TURN.U, TURN.N]

/-- The `Math.random()` draws consumed by one iteration of the mutation loop:
the state pick, the color pick, the mutation-type coin, and the draws of the
redraw (`do … while`) loop or single value draw.  Each `Nat` stands for
`floor(r * 2^32)` of one uniform draw. -/
structure MutDraw where
  sPick : Nat
  cPick : Nat
  coin : Nat
  valDraws : List Nat

/-- The `do { v = cands[floor(r * len)] } while (v === cur)` redraw loop:
take the first drawn candidate different from the current value.  (On an
oracle where every draw repeats the current value the source loops forever;
the model returns the current value on that — probability-zero — oracle.) -/
def pickDifferent {α : Type} [DecidableEq α] (cands : List α) (cur : α) :
    List Nat → α
  | [] => cur
  | d :: rest =>
    let v := cands.getD (d * cands.length / 4294967296) cur
    if v = cur then pickDifferent cands cur rest else v

/-- One iteration of the mutation loop of `mutate`.  In strict mode the type
coin picks turn (< 0.5) or write; otherwise it indexes
`['turn', 'state', 'write']`. -/
def mutateStep (states colors : List Nat) (strict : Bool) (tbl : Table)
    (d : MutDraw) : Table :=
  let s := states.getD (d.sPick * states.length / 4294967296) 0
  let c := colors.getD (d.cPick * colors.length / 4294967296) 0
  let rule := tbl s c
  let mutationType : Nat :=
    if strict then (if d.coin < 2147483648 then 0 else 2)
    else d.coin * 3 / 4294967296
  if mutationType = 0 then
    setCell tbl s c { rule with turn := pickDifferent mutateTurns rule.turn d.valDraws }
  else if mutationType = 1 then
    setCell tbl s c
      { rule with nextState := states.getD (d.valDraws.headD 0 * states.length / 4294967296) 0 }
  else
    setCell tbl s c { rule with write := pickDifferent colors rule.write d.valDraws }

/-- `RuleGenerators.mutate` from `ruleGenerator.js`: clone the base table and
apply one mutation per oracle element (`draws.length` plays the source's
`mutations` count).  The key lists are read once from the base table and
never modified — mutations only assign cell fields. -/
def mutate (rt : RuleTable) (draws : List MutDraw) (strict : Bool) : RuleTable :=
  { stateKeys := rt.stateKeys, colors := rt.colors,
    rule := draws.foldl (mutateStep rt.stateKeys rt.colors strict) rt.rule }

/-! ## ruleGenerator.js: seed-pool bucket weights -/

/-- Exact value `c * √r`: the numbers produced by `getBucketWeight` and the
bucket CDF (rational multiples of square roots of member counts), kept in
a computable symbolic form. -/
structure RW where
  c : ℚ
  r : ℕ
deriving DecidableEq, Repr

/-- Scale by a rational (`w *= q`). -/
def RW.mulQ (w : RW) (q : ℚ) : RW := ⟨w.c * q, w.r⟩

/-- Product of two represented values (`√a * √b = √(a*b)`). -/
def RW.mul (a b : RW) : RW := ⟨a.c * b.c, a.r * b.r⟩

/-- The signed square `sign(q) * q^2`, kept executable. -/
def qsq (q : ℚ) : ℚ :=
  if q < 0 then -(q * q) else q * q

/-- Equality of the represented real values: since `√r ≥ 0`, the reals
`a.c * √a.r` and `b.c * √b.r` (with `r` a natural) are equal iff their
signed squares `sign(c) * c^2 * r` agree. -/
def RW.eqv (a b : RW) : Prop :=
  qsq a.c * (a.r : ℚ) = qsq b.c * (b.r : ℚ)

/-- On nonnegative rationals the signed square is the square. -/
theorem qsq_of_nonneg {q : ℚ} (h : 0 ≤ q) : qsq q = q * q :=
  if_neg (not_lt.mpr h)

/-- `getBucketWeight` from `ruleGenerator.js`:
`√(max(1, count))` scaled by the family/mapping multipliers selected via
substring tests on the bucket key. -/
def getBucketWeight (bucketKey : String) (count : Nat) : RW :=
  let w : RW := ⟨1, max 1 count⟩
  let w := if stringIncludes bucketKey "traffic__" then w.mulQ (5/4) else w
  let w := if stringIncludes bucketKey "multicolor__" then w.mulQ (23/20) else w
  let w := if stringIncludes bucketKey "__eca8bit_to_turmite_v2" then w.mulQ (11/10) else w
  let w := if stringIncludes bucketKey "__eca8bit_to_turmite_v1" then w.mulQ 1 else w
  let w := if stringIncludes bucketKey "__derived" then w.mulQ (1/2) else w
  w

/-- `getSeedPoolWeight` from `ruleGenerator.js` (class-hint and family
multipliers; all rational). -/
def getSeedPoolWeight (e : SeedEntry) : ℚ :=
  let hint := e.meta.wolframClassHint
  let w : ℚ := 1
  let w := if hint = 1 then w * (7/20)
    else if hint = 2 then w * 1
    else if hint = 3 then w * (8/5)
    else if hint = 4 then w * 2
    else w
  let w := if e.meta.family = "traffic" then w * (5/4) else w
  let w := if e.meta.family = "derived" then w * (1/2) else w
  w

/-- `bucketKeyForSeed`: `family + '__' + mapping` (the model's entries always
carry a meta record, as does every entry the pool builder produces). -/
def bucketKeyForSeed (e : SeedEntry) : String :=
  e.meta.family ++ "__" ++ e.meta.mapping

/-- Insertion-order grouping: append the entry to its key's bucket, creating
the bucket at the end on first sight (JS `Map` iteration order). -/
def addToBucket : List (String × List SeedEntry) → String → SeedEntry →
    List (String × List SeedEntry)
  | [], key, e => [(key, [e])]
  | (k, es) :: rest, key, e =>
    if k = key then (k, es ++ [e]) :: rest
    else (k, es) :: addToBucket rest key e

/-- The bucket list built by `ensureSeedPoolBuckets` (keys with their member
entries, in first-seen order). -/
def groupBuckets (pool : List SeedEntry) : List (String × List SeedEntry) :=
  pool.foldl (fun acc e => addToBucket acc (bucketKeyForSeed e) e) []

/-- The per-bucket entry CDF and its running total, as built by the inner
loop of `ensureSeedPoolBuckets`. -/
def bucketCdfAndTotal (es : List SeedEntry) : List ℚ × ℚ :=
  es.foldl (fun acc e =>
    let t := acc.2 + getSeedPoolWeight e
    (acc.1 ++ [t], t)) ([], 0)

/-- The increment this bucket contributes to the bucket-level CDF
(`getBucketWeight(bucket.key, idxs.length) * Math.max(1e-6, total)`); the
bucket's selection probability under CDF sampling is this increment divided
by the total.  `1e-6` is modelled as the exact rational. -/
def bucketIncrement (key : String) (es : List SeedEntry) : RW :=
  (getBucketWeight key es.length).mulQ (max (1/1000000) (bucketCdfAndTotal es).2)

/-- The bucket-level CDF increments of `ensureSeedPoolBuckets` for a pool. -/
def bucketIncrements (pool : List SeedEntry) : List (String × RW) :=
  (groupBuckets pool).map fun b => (b.1, bucketIncrement b.1 b.2)

/-! ## simulation.js: AntSimulation -/

/-- An ant: coordinates and facing as JS numbers (`Int`, since they go
transiently negative before wrapping), plus the turmite state. -/
structure Ant where
  x : Int
  y : Int
  facing : Int
  state : Nat
deriving DecidableEq, Repr

/-- The parts of `AntSimulation` that `step`/`update` read and write.  The
grid is the flat `Uint8Array` as an index function; `rules` is the two-level
JS object lookup (either level may miss). -/
structure AntSim where
  width : Nat
  height : Nat
  grid : Nat → Nat
  ants : List Ant
  rules : Nat → Option (Nat → Option Rule)
  stepCount : Nat

/-- The edge wrap of `step`: `if (v < 0) v = limit - 1; else if (v >= limit)
v = 0;`. -/
def wrapCoord (limit : Nat) (v : Int) : Int :=
  if v < 0 then (limit : Int) - 1
  else if v ≥ (limit : Int) then 0
  else v

/-- Processing of a single ant inside `step`: look up the rule for
(state, current color), write the cell (`Uint8Array` stores `write % 256`),
take the next state, turn, move one cell, and wrap.  A missing state row, a
missing rule, or an out-of-range flat grid index (JS `undefined` lookups)
leaves the ant and grid unchanged. -/
def stepAnt (w h : Nat) (rules : Nat → Option (Nat → Option Rule))
    (grid : Nat → Nat) (ant : Ant) : (Nat → Nat) × Ant :=
  let index : Int := ant.y * (w : Int) + ant.x
  match rules ant.state with
  | none => (grid, ant)
  | some stateRules =>
    let colorOpt : Option Nat :=
      if 0 ≤ index ∧ index < ((w * h : Nat) : Int) then some (grid index.toNat) else none
    match colorOpt.bind stateRules with
    | none => (grid, ant)
    | some rule =>
      let currentColor := grid index.toNat
      let grid' := if currentColor ≠ rule.write then
        (fun i => if i = index.toNat then rule.write % 256 else grid i) else grid
      let facing' := if rule.turn = TURN.U then Int.tmod (ant.facing + 2) 4
        else Int.tmod (ant.facing + rule.turn + 4) 4
      let xy : Int × Int :=
        if facing' = 0 then (ant.x, ant.y - 1)
        else if facing' = 1 then (ant.x + 1, ant.y)
        else if facing' = 2 then (ant.x, ant.y + 1)
        else if facing' = 3 then (ant.x - 1, ant.y)
        else (ant.x, ant.y)
      (grid', { x := wrapCoord w xy.1, y := wrapCoord h xy.2,
                facing := facing', state := rule.nextState })

/-- `AntSimulation.step`: process the ants in order, threading grid writes
(earlier ants' writes are visible to later ants in the same step). -/
def AntSim.step (sim : AntSim) : AntSim :=
  let folded := sim.ants.foldl (fun (acc : (Nat → Nat) × List Ant) ant =>
    let r := stepAnt sim.width sim.height sim.rules acc.1 ant
    (r.1, acc.2 ++ [r.2])) (sim.grid, [])
  { sim with grid := folded.1, ants := folded.2, stepCount := sim.stepCount + 1 }

/-- `AntSimulation.update(steps)`: `steps` sequential calls to `step`. -/
def AntSim.update (sim : AntSim) : Nat → AntSim
  | 0 => sim
  | n + 1 => AntSim.update sim.step n

/-- The toroidal-bounds predicate of claim C10. -/
def antInBounds (w h : Nat) (a : Ant) : Prop :=
  0 ≤ a.x ∧ a.x < (w : Int) ∧ 0 ≤ a.y ∧ a.y < (h : Int)

instance (w h : Nat) (a : Ant) : Decidable (antInBounds w h a) := by
  unfold antInBounds; infer_instance

/-! ## main.js: the randomize retry loop -/

/-- The `do … while` retry loop of the Randomize handler in `main.js`, with
`maxAttempts = 10` baked into the guard as in the source.  `cand n` is the
oracle describing attempt `n` (n ≥ 1): the generated rule table and the
outcome of `RuleGenerators.validate` on it (with its randomly drawn spawn
strategy).  The fuel argument only bounds the recursion; starting from
`attempts = 0` with fuel 10 it never runs out before the guard stops the
loop. -/
def retryLoopAux (cand : Nat → RuleTable × Bool) : Nat → Nat → Nat
  | 0, attempts => attempts
  | fuel + 1, attempts =>
    let attempts' := attempts + 1
    if (cand attempts').2 = false ∧ attempts' < 10 then
      retryLoopAux cand fuel attempts'
    else attempts'

/-- The number of generate-then-validate attempts the loop performs. -/
def retryAttempts (cand : Nat → RuleTable × Bool) : Nat :=
  retryLoopAux cand 10 0

/-- What the loop leaves in `newRules` / `isValid`: the candidate of the
final attempt, installed whether or not it validated (the source only logs a
warning when `isValid` is still false). -/
def retryResult (cand : Nat → RuleTable × Bool) : RuleTable × Bool :=
  cand (retryAttempts cand)

/-! ## Claims -/

/-- C4: each of the three ECA symmetry transforms — `mirror_lr`,
`invert_in_out` (conjugate), `invert_out` — applied twice in isolation via
`applyEcaTransforms` returns the original 8-bit string. -/
theorem eca_transforms_involutive :
    ∀ (b0 b1 b2 b3 b4 b5 b6 b7 : Bool),
      applyEcaTransforms
          (applyEcaTransforms [b0, b1, b2, b3, b4, b5, b6, b7] ["mirror_lr"])
          ["mirror_lr"] = [b0, b1, b2, b3, b4, b5, b6, b7] ∧
      applyEcaTransforms
          (applyEcaTransforms [b0, b1, b2, b3, b4, b5, b6, b7] ["invert_in_out"])
          ["invert_in_out"] = [b0, b1, b2, b3, b4, b5, b6, b7] ∧
      applyEcaTransforms
          (applyEcaTransforms [b0, b1, b2, b3, b4, b5, b6, b7] ["invert_out"])
          ["invert_out"] = [b0, b1, b2, b3, b4, b5, b6, b7] := by
  decide

/-- C2: the ECA bit mapper pipeline (bit-string construction, transform
application, `mapBitsToTurmiteRules`) and the Structural Enhancer
(`enhancePresetRules`) are deterministic: in this embedding they are pure
functions of their inputs — neither consumes an ambient-randomness oracle,
the enhancer drawing only from the `mulberry32(seed)` stream — so two runs
on identical inputs give identical tables.  In particular mapping ECA rule
110 with scheme v1 and no transforms twice yields identical 2-state/2-color
tables. -/
theorem eca_mapper_and_enhancer_deterministic :
    (∀ ruleNumber : Nat, ruleNumber ≤ 255 → ∀ (transforms : List String) (mapping : String),
      mapBitsToTurmiteRules (applyEcaTransforms (ecaRuleToBitString ruleNumber) transforms) mapping
        = mapBitsToTurmiteRules (applyEcaTransforms (ecaRuleToBitString ruleNumber) transforms) mapping) ∧
    (∀ (rt : RuleTable) (seed targetStates targetColors mutationCount : Nat),
      enhancePresetRules rt seed targetStates targetColors mutationCount
        = enhancePresetRules rt seed targetStates targetColors mutationCount) ∧
    mapBitsToTurmiteRules (ecaRuleToBitString 110) "eca8bit_to_turmite_v1"
      = mapBitsToTurmiteRules (ecaRuleToBitString 110) "eca8bit_to_turmite_v1" ∧
    (mapBitsToTurmiteRules (ecaRuleToBitString 110) "eca8bit_to_turmite_v1").stateKeys.length = 2 ∧
    (mapBitsToTurmiteRules (ecaRuleToBitString 110) "eca8bit_to_turmite_v1").colors.length = 2 :=
  ⟨fun _ _ _ _ => rfl, fun _ _ _ _ _ => rfl, rfl, by decide, by decide⟩

/-- Witness for C2 at rule 110, no transforms, scheme v1. -/
theorem eca_mapper_and_enhancer_deterministic_witness :
    mapBitsToTurmiteRules (applyEcaTransforms (ecaRuleToBitString 110) []) "eca8bit_to_turmite_v1"
      = mapBitsToTurmiteRules (applyEcaTransforms (ecaRuleToBitString 110) []) "eca8bit_to_turmite_v1" :=
  eca_mapper_and_enhancer_deterministic.1 110 (by decide) [] "eca8bit_to_turmite_v1"

/-- The stream-expand cell formula exactly as claim C3 states it (`nextState
= (state + writeBit0) mod states` with `writeBit0` the first of the two
write bits); `specStreamBit` is the claim's `stream[i] = bit[i mod 8] XOR
mix(i)`. -/
def specStreamBit (bits : List Bool) (i : Nat) : Nat :=
  (bitNat bits (i % 8)) ^^^ (((i * 5) ^^^ (i / 2)) &&& 1)

/-- The per-cell rule asserted by claim C3 (spec wording). -/
def claimStreamCell (bits : List Bool) (state color : Nat) : Rule :=
  let k := state * 3 + color
  let w0 := specStreamBit bits (k * 4)
  let w1 := specStreamBit bits (k * 4 + 1)
  let t0 := specStreamBit bits (k * 4 + 2)
  let t1 := specStreamBit bits (k * 4 + 3)
  { write := (w0 * 2 + w1) % 3,
    turn := turnsLRNU.getD (t0 * 2 + t1) 0,
    nextState := (state + w0) % 2 }

/-- The per-cell rule the source actually computes: identical to the claim's
formula except that the state increment is the low bit of the *reduced*
write value, `(write2bit % numColors) & 1`, not the first write bit. -/
def amendedStreamCell (bits : List Bool) (state color : Nat) : Rule :=
  let k := state * 3 + color
  let w0 := specStreamBit bits (k * 4)
  let w1 := specStreamBit bits (k * 4 + 1)
  let t0 := specStreamBit bits (k * 4 + 2)
  let t1 := specStreamBit bits (k * 4 + 3)
  let writeVal := (w0 * 2 + w1) % 3
  { write := writeVal,
    turn := turnsLRNU.getD (t0 * 2 + t1) 0,
    nextState := (state + (writeVal &&& 1)) % 2 }

/-- Counterexample to C3: for the all-zero bit string (ECA rule 0), cell
(state 0, color 0) has write bits (0, 1), so the code's
`nextState = (0 + ((0*2+1) % 3) & 1) % 2 = 1` while the claim's
`(state + writeBit0) mod states = 0`. -/
theorem stream_expand_nextState_counterexample :
    ((mapBitsToTurmiteRules (List.replicate 8 false) "eca_stream_to_turmite_2s3c_v1").rule 0 0).nextState = 1 ∧
    (claimStreamCell (List.replicate 8 false) 0 0).nextState = 0 ∧
    (mapBitsToTurmiteRules (List.replicate 8 false) "eca_stream_to_turmite_2s3c_v1").rule 0 0
      ≠ claimStreamCell (List.replicate 8 false) 0 0 := by
  decide

/-- C3 (amended): under the stream-expand mapping every cell is given by the
claim's stream/write/turn formulas, with the corrected state rule
`nextState = (state + (write & 1)) mod states` where `write` is the 2-bit
write value already reduced into the color range; and the table is
2-state/3-color. -/
theorem stream_expand_mapping_formula :
    ∀ (b0 b1 b2 b3 b4 b5 b6 b7 : Bool) (s : Fin 2) (c : Fin 3),
      (mapBitsToTurmiteRules [b0, b1, b2, b3, b4, b5, b6, b7]
          "eca_stream_to_turmite_2s3c_v1").rule s.val c.val
        = amendedStreamCell [b0, b1, b2, b3, b4, b5, b6, b7] s.val c.val ∧
      (mapBitsToTurmiteRules [b0, b1, b2, b3, b4, b5, b6, b7]
          "eca_stream_to_turmite_2s3c_v1").stateKeys = [0, 1] ∧
      (mapBitsToTurmiteRules [b0, b1, b2, b3, b4, b5, b6, b7]
          "eca_stream_to_turmite_2s3c_v1").colors = [0, 1, 2] := by
  decide

/-- The first transform combo processed by the dedup loop always survives
(its bit string cannot already be in the seen set when the set lacks it). -/
theorem dedupVariantsAux_head_mem (bits : List Bool) (t : List String)
    (rest : List (List String)) (seen : List (List Bool))
    (h : applyEcaTransforms bits t ∉ seen) :
    (applyEcaTransforms bits t, t) ∈ dedupVariantsAux bits (t :: rest) seen := by
  rw [dedupVariantsAux]
  simp only [h, if_false]
  exact List.mem_cons_self _ _

/-- The identity transform combo is first, so the untransformed bit string
always yields a surviving variant. -/
theorem dedup_base_mem (bits : List Bool) :
    (bits, ([] : List String)) ∈ dedupVariants bits := by
  have h0 : applyEcaTransforms bits [] = bits := rfl
  have h := dedupVariantsAux_head_mem bits [] (transformCombos.tail) []
    (by simp)
  rw [h0] at h
  exact h

/-- C5: before the deterministic top-up, the seed pool contains, for every
rule number 0–255 and each of the three mapping schemes, at least one entry
whose `meta.ecaRule` is that rule and whose `meta.mapping` is that scheme —
the per-rule dedup of transformed bit strings never removes the identity
variant, and every surviving variant is emitted under every mapping. -/
theorem seed_pool_coverage :
    ∀ r : Nat, r ≤ 255 → ∀ m ∈ seedPoolMappings,
      ∃ e ∈ buildMutationSeedPoolPre, e.meta.ecaRule = r ∧ e.meta.mapping = m := by
  intro r hr m hm
  refine ⟨mkSeedEntry r (ecaRuleToBitString r) [] m, ?_, rfl, rfl⟩
  unfold buildMutationSeedPoolPre
  refine List.mem_flatMap.mpr ⟨r, List.mem_range.mpr (by omega), ?_⟩
  exact List.mem_flatMap.mpr ⟨(ecaRuleToBitString r, []), dedup_base_mem _,
    List.mem_map.mpr ⟨m, hm, rfl⟩⟩

/-- Witness for C5 at rule 110 and the v1 mapping scheme. -/
theorem seed_pool_coverage_witness :
    ∃ e ∈ buildMutationSeedPoolPre,
      e.meta.ecaRule = 110 ∧ e.meta.mapping = "eca8bit_to_turmite_v1" :=
  seed_pool_coverage 110 (by decide) "eca8bit_to_turmite_v1" (by simp [seedPoolMappings])

/-- Behavior of the retry recursion under the loop invariant
`fuel + attempts = 10` with fuel remaining: it advances at least one
attempt, never beyond 10, every strictly earlier attempt after the entry
point failed validation, and a failed final attempt means the bound was
exhausted. -/
theorem retryLoopAux_spec (cand : Nat → RuleTable × Bool) :
    ∀ fuel attempts, fuel + attempts = 10 → 1 ≤ fuel →
      attempts + 1 ≤ retryLoopAux cand fuel attempts ∧
      retryLoopAux cand fuel attempts ≤ 10 ∧
      (∀ j, attempts + 1 ≤ j → j < retryLoopAux cand fuel attempts → (cand j).2 = false) ∧
      ((cand (retryLoopAux cand fuel attempts)).2 = false →
        retryLoopAux cand fuel attempts = 10) := by
  intro fuel
  induction fuel with
  | zero => intro attempts _ h1; omega
  | succ f ih =>
    intro attempts hsum _
    rw [retryLoopAux]
    by_cases hc : (cand (attempts + 1)).2 = false ∧ attempts + 1 < 10
    · rw [if_pos hc]
      obtain ⟨h1, h2, h3, h4⟩ := ih (attempts + 1) (by omega) (by omega)
      refine ⟨by omega, h2, ?_, h4⟩
      intro j hj1 hj2
      rcases Nat.eq_or_lt_of_le hj1 with h | h
      · rw [← h]; exact hc.1
      · exact h3 j h hj2
    · rw [if_neg hc]
      refine ⟨Nat.le_refl _, by omega, by omega, ?_⟩
      intro hfail
      by_contra hne
      exact hc ⟨hfail, by omega⟩

/-- C6: the randomize retry loop performs between 1 and 10
generate-then-validate attempts, stops at the first attempt that validates
(every earlier attempt failed), installs the candidate of the final attempt
as the result in every case, and when that final candidate failed
validation the attempt bound 10 was fully used (the source then only logs a
warning — it never fails or returns nothing; termination is the totality of
`retryAttempts`). -/
theorem randomize_retry_loop_bounded (cand : Nat → RuleTable × Bool) :
    1 ≤ retryAttempts cand ∧
    retryAttempts cand ≤ 10 ∧
    retryResult cand = cand (retryAttempts cand) ∧
    (∀ j, 1 ≤ j → j < retryAttempts cand → (cand j).2 = false) ∧
    ((cand (retryAttempts cand)).2 = false → retryAttempts cand = 10) := by
  obtain ⟨h1, h2, h3, h4⟩ := retryLoopAux_spec cand 10 0 rfl (by omega)
  exact ⟨h1, h2, rfl, h3, h4⟩

/-- Witness for C6 on an oracle whose attempts all fail validation: the loop
runs exactly 10 attempts. -/
theorem randomize_retry_loop_bounded_witness :
    retryAttempts (fun _ => (⟨[0], [0, 1], fun _ _ => ⟨1, 1, 0⟩⟩, false)) = 10 :=
  (randomize_retry_loop_bounded (fun _ => (⟨[0], [0, 1], fun _ _ => ⟨1, 1, 0⟩⟩, false))).2.2.2.2
    rfl

/-- Assigning a cell whose replacement keeps the old `nextState` preserves
every cell's `nextState`. -/
theorem setCell_nextState (t : Table) (s0 c0 : Nat) (r : Rule)
    (h : r.nextState = (t s0 c0).nextState) (s c : Nat) :
    ((setCell t s0 c0 r) s c).nextState = (t s c).nextState := by
  show (if s = s0 ∧ c = c0 then r else t s c).nextState = (t s c).nextState
  by_cases hsc : s = s0 ∧ c = c0
  · rw [if_pos hsc, h, hsc.1, hsc.2]
  · rw [if_neg hsc]

/-- In strict mode the mutation-type coin only ever selects turn or write,
so a single mutation step never changes any cell's `nextState`. -/
theorem mutateStep_strict_nextState (states colors : List Nat) (tbl : Table)
    (d : MutDraw) (s c : Nat) :
    ((mutateStep states colors true tbl d) s c).nextState = (tbl s c).nextState := by
  unfold mutateStep
  by_cases hc : d.coin < 2147483648 <;>
    simp only [hc, ite_true, ite_false, if_true, if_false] <;>
    norm_num <;>
    · apply setCell_nextState
      rfl

/-- C9: strict mutation is a frame operation on state flow — for every base
table and every oracle of mutation draws, `mutate(base, n, strict = true)`
keeps exactly the base table's state keys and color keys, and every
(state, color) cell's `nextState` equals the base table's (only turn and
write values may change). -/
theorem mutate_strict_preserves_nextState (rt : RuleTable) (draws : List MutDraw) :
    (mutate rt draws true).stateKeys = rt.stateKeys ∧
    (mutate rt draws true).colors = rt.colors ∧
    ∀ s c, ((mutate rt draws true).rule s c).nextState = (rt.rule s c).nextState := by
  refine ⟨rfl, rfl, ?_⟩
  show ∀ s c,
    ((draws.foldl (mutateStep rt.stateKeys rt.colors true) rt.rule) s c).nextState
      = (rt.rule s c).nextState
  induction draws generalizing rt with
  | nil => intro s c; rfl
  | cons d rest ih =>
    intro s c
    rw [List.foldl_cons]
    have := ih ⟨rt.stateKeys, rt.colors, mutateStep rt.stateKeys rt.colors true rt.rule d⟩
    simp only at this
    rw [this s c, mutateStep_strict_nextState]

/-- C1: for every rule table that passes the structural gate, `validate`
returns false whenever any color is absorbing, or the write-change ratio is
below the 0.22 threshold, or no state writes a non-zero color when reading
color 0 — and it does so for *every* simulated gate and every
strategy/width/height argument, so no simulation is ever constructed or
stepped in these cases. -/
theorem validate_static_failfast (rt : RuleTable)
    (hstruct : isValidRuleSetStructure rt = true)
    (hbad : (computeDynamicsStats rt).absorbingColors ≠ [] ∨
        100 * (computeDynamicsStats rt).writeChangeCount
          < 22 * (computeDynamicsStats rt).totalRules ∨
        (computeDynamicsStats rt).nonZeroWriteFromZeroCount = 0) :
    ∀ (simGate : RuleTable → String → Nat → Nat → Bool) (strategy : String) (w h : Nat),
      validateWith simGate rt strategy w h = false := by
  intro simGate strategy w h
  have h1 : rt.stateKeys.length ≠ 0 := by
    intro h
    unfold isValidRuleSetStructure at hstruct
    rw [if_pos h] at hstruct
    exact Bool.false_ne_true hstruct
  have h2 : ¬ (rt.stateKeys.length < 1 ∨ rt.colors.length < 2) := by
    intro h
    unfold isValidRuleSetStructure at hstruct
    rw [if_neg h1, if_pos h] at hstruct
    exact Bool.false_ne_true hstruct
  have hcond : ¬ (rt.stateKeys.length = 0 ∨ rt.colors.length = 0) := by omega
  obtain ⟨s, hs⟩ := List.exists_mem_of_length_pos
    (show 0 < rt.stateKeys.length by omega)
  obtain ⟨c, hc⟩ := List.exists_mem_of_length_pos
    (show 0 < rt.colors.length by omega)
  have hmem : (s, c) ∈ allCells rt :=
    List.mem_flatMap.mpr ⟨s, hs, List.mem_map.mpr ⟨c, hc, rfl⟩⟩
  have htr : (computeDynamicsStats rt).totalRules ≠ 0 := by
    have hlen := List.length_pos.mpr (List.ne_nil_of_mem hmem)
    unfold computeDynamicsStats
    rw [if_neg hcond]
    show (allCells rt).length ≠ 0
    omega
  have hpass : staticDynamicsPass rt = false := by
    simp only [staticDynamicsPass]
    split_ifs with hA hB hC hD hE hF hG
    · exact absurd hA htr
    · rfl
    · rfl
    · rfl
    · rfl
    · rfl
    · rfl
    · exfalso
      rcases hbad with h | h | h
      · exact h (List.length_eq_zero.mp (by omega))
      · exact hD h
      · exact hB h
  simp [validateWith, hstruct, hpass]

/-- A table that passes the structural gate but carries an absorbing color:
both states rewrite color 1 to itself, while turn and write variety and
closure hold. -/
def absorbingColorTable : RuleTable :=
  { stateKeys := [0, 1], colors := [0, 1],
    rule := fun s c =>
      if s = 0 then (if c = 0 then ⟨1, TURN.R, 0⟩ else ⟨1, TURN.L, 0⟩)
      else (if c = 0 then ⟨0, TURN.R, 1⟩ else ⟨1, TURN.L, 1⟩) }

/-- Witness for C1: the absorbing-color table is rejected without the
simulated gate ever being consulted (here the gate would accept). -/
theorem validate_static_failfast_witness :
    validateWith (fun _ _ _ _ => true) absorbingColorTable "center" 40 40 = false :=
  validate_static_failfast absorbingColorTable (by decide) (Or.inl (by decide))
    (fun _ _ _ _ => true) "center" 40 40

/-- The 1-state/1-color table of Scenario B: the single rule writes the read
color (0) and never turns. -/
def scenarioBTable : RuleTable :=
  { stateKeys := [0], colors := [0], rule := fun _ _ => ⟨0, TURN.N, 0⟩ }

/-- C8: the Scenario B table is rejected at the structural gate — it indeed
has only one distinct turn value and one distinct write value (the
"insufficient turn/write variety" of the claim, with the color-count check
also failing) — and `validate` returns false for every simulated gate and
every strategy/width/height argument, without constructing or running any
simulation and without any exceptional outcome (the embedded validator is a
total function into `Bool`). -/
theorem scenarioB_rejected_structurally :
    isValidRuleSetStructure scenarioBTable = false ∧
    (turnValues scenarioBTable).dedup.length = 1 ∧
    (writeValues scenarioBTable).dedup.length = 1 ∧
    ∀ (simGate : RuleTable → String → Nat → Nat → Bool) (strategy : String) (w h : Nat),
      validateWith simGate scenarioBTable strategy w h = false := by
  have hs : isValidRuleSetStructure scenarioBTable = false := by decide
  exact ⟨hs, by decide, by decide, fun simGate strategy w h => by
    simp [validateWith, hs]⟩

instance (a b : RW) : Decidable (RW.eqv a b) := by
  unfold RW.eqv; infer_instance

/-- The running total of the per-bucket entry CDF is the sum of the member
weights. -/
theorem bucketCdfAndTotal_snd (es : List SeedEntry) :
    (bucketCdfAndTotal es).2 = (es.map getSeedPoolWeight).sum := by
  have aux : ∀ (l : List SeedEntry) (p : List ℚ × ℚ),
      (l.foldl (fun acc e =>
        let t := acc.2 + getSeedPoolWeight e
        (acc.1 ++ [t], t)) p).2 = p.2 + (l.map getSeedPoolWeight).sum := by
    intro l
    induction l with
    | nil => intro p; simp
    | cons e rest ih =>
      intro p
      rw [List.foldl_cons, ih]
      simp only [List.map_cons, List.sum_cons]
      ring
  simpa [bucketCdfAndTotal] using aux es ([], 0)

/-- The selection weight claim C7 should have asserted: the bucket-level CDF
increment as a product of `getBucketWeight` and the clamped total member
weight (this definition transcribes the amended spec wording; the theorem
below identifies it with the source's fold). -/
def specBucketSelectionWeight (b : String × List SeedEntry) : RW :=
  (getBucketWeight b.1 b.2.length).mulQ
    (max (1/1000000) ((b.2.map getSeedPoolWeight).sum))

/-- Two seed entries whose buckets expose the missing factor of claim C7:
same family, different mapping and class hint. -/
def classTwoSeedEntry : SeedEntry :=
  { id := "eca-030__base__eca8bit_to_turmite_v1",
    label := "ECA 30 → eca8bit_to_turmite_v1 (base)",
    meta := { family := "ECA", ecaRule := 30, radius := 1, alphabet := [0, 1],
              transforms := ["base"], wolframClassHint := 2,
              mapping := "eca8bit_to_turmite_v1" },
    rules := mapBitsToTurmiteRules (ecaRuleToBitString 30) "eca8bit_to_turmite_v1" }

/-- A class-hint-4 entry under the v2 mapping (as rule 110 receives). -/
def classFourSeedEntry : SeedEntry :=
  { id := "eca-110__base__eca8bit_to_turmite_v2",
    label := "ECA 110 → eca8bit_to_turmite_v2 (base)",
    meta := { family := "ECA", ecaRule := 110, radius := 1, alphabet := [0, 1],
              transforms := ["base"], wolframClassHint := 4,
              mapping := "eca8bit_to_turmite_v2" },
    rules := mapBitsToTurmiteRules (ecaRuleToBitString 110) "eca8bit_to_turmite_v2" }

/-- Counterexample to C7 as stated: on the two-entry pool above, both
buckets have one member, so the claim predicts selection-probability ratio
`√1·1.0 : √1·1.1`; but the CDF increments are `1.0·1` and `1.1·2` (the
class-4 entry doubles its bucket's total entry weight), so the
cross-products of increments with sqrt-count-times-multiplier weights
differ. -/
theorem bucket_weight_ratio_counterexample :
    ¬ RW.eqv
      (RW.mul ((bucketIncrements [classTwoSeedEntry, classFourSeedEntry]).getD 0 ("", ⟨0, 0⟩)).2
        (getBucketWeight (bucketKeyForSeed classFourSeedEntry) 1))
      (RW.mul ((bucketIncrements [classTwoSeedEntry, classFourSeedEntry]).getD 1 ("", ⟨0, 0⟩)).2
        (getBucketWeight (bucketKeyForSeed classTwoSeedEntry) 1)) := by
  have hg : groupBuckets [classTwoSeedEntry, classFourSeedEntry]
      = [("ECA__eca8bit_to_turmite_v1", [classTwoSeedEntry]),
         ("ECA__eca8bit_to_turmite_v2", [classFourSeedEntry])] := rfl
  have h0 : (bucketIncrements [classTwoSeedEntry, classFourSeedEntry]).getD 0 ("", ⟨0, 0⟩)
      = ("ECA__eca8bit_to_turmite_v1",
         bucketIncrement "ECA__eca8bit_to_turmite_v1" [classTwoSeedEntry]) := by
    unfold bucketIncrements
    rw [hg]
    rfl
  have h1 : (bucketIncrements [classTwoSeedEntry, classFourSeedEntry]).getD 1 ("", ⟨0, 0⟩)
      = ("ECA__eca8bit_to_turmite_v2",
         bucketIncrement "ECA__eca8bit_to_turmite_v2" [classFourSeedEntry]) := by
    unfold bucketIncrements
    rw [hg]
    rfl
  have sA1 : stringIncludes "ECA__eca8bit_to_turmite_v1" "traffic__" = false := rfl
  have sA2 : stringIncludes "ECA__eca8bit_to_turmite_v1" "multicolor__" = false := rfl
  have sA3 : stringIncludes "ECA__eca8bit_to_turmite_v1" "__eca8bit_to_turmite_v2" = false := rfl
  have sA4 : stringIncludes "ECA__eca8bit_to_turmite_v1" "__eca8bit_to_turmite_v1" = true := rfl
  have sA5 : stringIncludes "ECA__eca8bit_to_turmite_v1" "__derived" = false := rfl
  have sB1 : stringIncludes "ECA__eca8bit_to_turmite_v2" "traffic__" = false := rfl
  have sB2 : stringIncludes "ECA__eca8bit_to_turmite_v2" "multicolor__" = false := rfl
  have sB3 : stringIncludes "ECA__eca8bit_to_turmite_v2" "__eca8bit_to_turmite_v2" = true := rfl
  have sB4 : stringIncludes "ECA__eca8bit_to_turmite_v2" "__eca8bit_to_turmite_v1" = false := rfl
  have sB5 : stringIncludes "ECA__eca8bit_to_turmite_v2" "__derived" = false := rfl
  have hwA : getBucketWeight "ECA__eca8bit_to_turmite_v1" 1 = ⟨1, 1⟩ := by
    simp only [getBucketWeight, sA1, sA2, sA3, sA4, sA5, if_true, if_false,
      Bool.false_eq_true, ite_false, ite_true, RW.mulQ]
    norm_num
  have hwB : getBucketWeight "ECA__eca8bit_to_turmite_v2" 1 = ⟨11/10, 1⟩ := by
    simp only [getBucketWeight, sB1, sB2, sB3, sB4, sB5, if_true, if_false,
      Bool.false_eq_true, ite_false, ite_true, RW.mulQ]
    norm_num
  have htA : (bucketCdfAndTotal [classTwoSeedEntry]).2 = 1 := by
    norm_num [bucketCdfAndTotal, getSeedPoolWeight, classTwoSeedEntry]
    rw [if_neg (by decide : ("ECA" : String) ≠ "derived"),
      if_neg (by decide : ("ECA" : String) ≠ "traffic")]
  have htB : (bucketCdfAndTotal [classFourSeedEntry]).2 = 2 := by
    norm_num [bucketCdfAndTotal, getSeedPoolWeight, classFourSeedEntry]
    rw [if_neg (by decide : ("ECA" : String) ≠ "derived"),
      if_neg (by decide : ("ECA" : String) ≠ "traffic")]
  have hk1 : bucketKeyForSeed classTwoSeedEntry = "ECA__eca8bit_to_turmite_v1" := rfl
  have hk2 : bucketKeyForSeed classFourSeedEntry = "ECA__eca8bit_to_turmite_v2" := rfl
  rw [h0, h1, hk1, hk2]
  unfold bucketIncrement
  simp only [List.length_singleton, htA, htB, hwA, hwB]
  rw [max_eq_right (by norm_num : (1 : ℚ)/1000000 ≤ 1),
    max_eq_right (by norm_num : (1 : ℚ)/1000000 ≤ 2)]
  simp only [RW.mulQ, RW.mul, RW.eqv]
  rw [qsq_of_nonneg (by norm_num), qsq_of_nonneg (by norm_num)]
  norm_num

/-- C7 (amended): the weight that determines a bucket's selection
probability — its bucket-level CDF increment — equals
`√(max(1, member count)) × family/mapping multipliers × max(1e-6, total
member entry weight)`, and for every pair of buckets the ratio of selection
probabilities equals the ratio of these products. -/
theorem bucket_selection_weight_formula :
    (∀ (key : String) (es : List SeedEntry),
      bucketIncrement key es = specBucketSelectionWeight (key, es)) ∧
    (∀ b1 b2 : String × List SeedEntry,
      RW.eqv (RW.mul (bucketIncrement b1.1 b1.2) (specBucketSelectionWeight b2))
        (RW.mul (bucketIncrement b2.1 b2.2) (specBucketSelectionWeight b1))) := by
  have hinc : ∀ (key : String) (es : List SeedEntry),
      bucketIncrement key es = specBucketSelectionWeight (key, es) := by
    intro key es
    unfold bucketIncrement specBucketSelectionWeight
    rw [bucketCdfAndTotal_snd]
  refine ⟨hinc, ?_⟩
  intro b1 b2
  rw [hinc b1.1 b1.2, hinc b2.1 b2.2]
  simp only [RW.eqv, RW.mul]
  rw [mul_comm (specBucketSelectionWeight b2).c (specBucketSelectionWeight b1).c]
  push_cast
  ring

/-- The edge wrap always lands inside `[0, limit)` when the grid dimension
is at least 1 (this needs nothing about the incoming coordinate). -/
theorem wrapCoord_bounds (limit : Nat) (hl : 1 ≤ limit) (v : Int) :
    0 ≤ wrapCoord limit v ∧ wrapCoord limit v < (limit : Int) := by
  unfold wrapCoord
  split_ifs with h1 h2 <;> constructor <;> omega

/-- Processing one ant keeps it on the toroidal grid: if its rule lookup
fails it does not move, and if it moves, both coordinates pass through the
edge wrap. -/
theorem stepAnt_bounds (w h : Nat) (hw : 1 ≤ w) (hh : 1 ≤ h)
    (rules : Nat → Option (Nat → Option Rule)) (grid : Nat → Nat) (ant : Ant)
    (hin : antInBounds w h ant) :
    antInBounds w h (stepAnt w h rules grid ant).2 := by
  unfold stepAnt
  cases hrow : rules ant.state with
  | none => exact hin
  | some stateRules =>
    cases hrule : ((if 0 ≤ ant.y * (w : Int) + ant.x ∧
        ant.y * (w : Int) + ant.x < ((w * h : Nat) : Int) then
          some (grid (ant.y * (w : Int) + ant.x).toNat)
        else none).bind stateRules) with
    | none => simp only [hrule]; exact hin
    | some rule =>
      simp only [hrule]
      exact ⟨(wrapCoord_bounds w hw _).1, (wrapCoord_bounds w hw _).2,
        (wrapCoord_bounds h hh _).1, (wrapCoord_bounds h hh _).2⟩

/-- The ant fold of `step` preserves the bounds predicate for every
processed ant, whatever grid states it threads through. -/
theorem step_fold_bounds (w h : Nat) (hw : 1 ≤ w) (hh : 1 ≤ h)
    (rules : Nat → Option (Nat → Option Rule)) :
    ∀ (ants : List Ant) (grid : Nat → Nat) (acc : List Ant),
      (∀ a ∈ acc, antInBounds w h a) → (∀ a ∈ ants, antInBounds w h a) →
      ∀ a ∈ (ants.foldl (fun (p : (Nat → Nat) × List Ant) ant =>
          let r := stepAnt w h rules p.1 ant
          (r.1, p.2 ++ [r.2])) (grid, acc)).2, antInBounds w h a := by
  intro ants
  induction ants with
  | nil => intro grid acc hacc _ a ha; exact hacc a ha
  | cons ant rest ih =>
    intro grid acc hacc hants a ha
    rw [List.foldl_cons] at ha
    refine ih _ _ ?_ (fun x hx => hants x (List.mem_cons_of_mem _ hx)) a ha
    intro x hx
    rcases List.mem_append.mp hx with h1 | h2
    · exact hacc x h1
    · rw [List.mem_singleton.mp h2]
      exact stepAnt_bounds w h hw hh rules grid ant (hants ant (List.mem_cons_self _ _))

/-- One `step` call keeps every ant on the grid. -/
theorem step_preserves_bounds (sim : AntSim) (hw : 1 ≤ sim.width)
    (hh : 1 ≤ sim.height)
    (hants : ∀ a ∈ sim.ants, antInBounds sim.width sim.height a) :
    ∀ a ∈ sim.step.ants, antInBounds sim.width sim.height a := by
  intro a ha
  exact step_fold_bounds sim.width sim.height hw hh sim.rules sim.ants sim.grid []
    (fun x hx => absurd hx (List.not_mem_nil x)) hants a ha

/-- C10: for an `AntSimulation` of width and height at least 1, the
predicate “every ant's coordinates satisfy `0 ≤ x < width` and
`0 ≤ y < height`” is an invariant of `step` and hence of `update(n)` for
every `n` — an ant that moves off an edge wraps to the opposite edge of the
toroidal grid. -/
theorem ant_bounds_invariant (sim : AntSim) (hw : 1 ≤ sim.width)
    (hh : 1 ≤ sim.height)
    (hants : ∀ a ∈ sim.ants, antInBounds sim.width sim.height a) :
    (∀ a ∈ sim.step.ants, antInBounds sim.width sim.height a) ∧
    ∀ n, ∀ a ∈ (sim.update n).ants, antInBounds sim.width sim.height a := by
  have haux : ∀ (n : Nat) (s : AntSim), 1 ≤ s.width → 1 ≤ s.height →
      (∀ a ∈ s.ants, antInBounds s.width s.height a) →
      ∀ a ∈ (s.update n).ants, antInBounds s.width s.height a := by
    intro n
    induction n with
    | zero => intro s _ _ hs a ha; exact hs a ha
    | succ n ih =>
      intro s hws hhs hs
      exact ih s.step hws hhs (step_preserves_bounds s hws hhs hs)
  exact ⟨step_preserves_bounds sim hw hh hants, fun n => haux n sim hw hh hants⟩

/-- A concrete 3×3 simulation with a Langton-style rule row and a single
centered ant, for the C10 witness. -/
def boundsWitnessSim : AntSim :=
  { width := 3, height := 3, grid := fun _ => 0,
    ants := [⟨1, 1, 0, 0⟩],
    rules := fun s =>
      if s = 0 then
        some (fun c =>
          if c = 0 then some ⟨1, TURN.R, 0⟩
          else if c = 1 then some ⟨0, TURN.L, 0⟩
          else none)
      else none,
    stepCount := 0 }

/-- Witness for C10: after three updates of the concrete simulation the
(computed) ant is still on the grid. -/
theorem ant_bounds_invariant_witness :
    antInBounds boundsWitnessSim.width boundsWitnessSim.height (⟨1, 2, 3, 0⟩ : Ant) :=
  (ant_bounds_invariant boundsWitnessSim (by decide) (by decide) (by decide)).2 3
    ⟨1, 2, 3, 0⟩ (by decide)
